import Mathlib

/-!
# Verification of the `xincache` cache engine (`src/Cache.py`)

This file gives a shallow embedding of the `Cache` class of `src/Cache.py`
and proves / refutes the frozen claims about it.

Modelling conventions:
* Python values that the cache stores are modelled by the inductive `Value`
  (`vnone` is Python `None`).  Floats are not needed by any claim.
* The `OrderedDict` `__cache_data` is modelled as an insertion-ordered
  association list `List (String × Option Entry)`.  The value type is
  `Option Entry` because `get` executes
  `self.__cache_data[key] = self.getDiskCache(key)` on a miss, which can
  store the Python value `None` (modelled `none`) into the map.
* The filesystem written by the disk helpers is modelled as an association
  list keyed by the cache key (the md5-sharded path is a function of the
  key alone, so this is faithful up to md5 collisions, which are not
  load-bearing for any claim).
* `int(time.time())` is modelled by an explicit `now : Int` argument.
* Python exceptions are modelled by `Except PyErr`; every operation also
  returns the state as mutated up to the point of the raise.
* `sys.getsizeof` is modelled by the CPython-64-bit byte counts for the
  object shapes that actually occur: `None` is 16 bytes, the three-element
  entry dict is 184 bytes, a `str` of length `n` is `49 + n` bytes,
  small ints are 28 bytes (the spec allows any consistent size proxy; only
  the comparisons in `set`'s eviction branch depend on these numbers).
* Python's class-body semantics make the second definition of
  `setDiskCache` (the per-key write helper, lines 54-67) shadow the first
  (the `cache_dir` configuration method, lines 22-32); the embedding
  therefore has only the surviving, per-key `setDiskCache`.
* The eviction loop `for k in self.__cache_data: ... del self.__cache_data[k]`
  follows CPython `OrderedDict` iterator semantics: the iterator advances
  past the yielded node before the body deletes it, so with exactly one
  entry the loop terminates normally, while with two or more entries the
  next `next()` call after a non-breaking iteration raises
  `RuntimeError` (mutated during iteration).
-/

set_option autoImplicit false

namespace XinCache

/-- Python runtime errors that the translated code can raise. -/
inductive PyErr where
  | typeError
  | keyError
  | runtimeError
deriving DecidableEq, Repr

/-- Python values storable in the cache.  `vnone` is Python `None`. -/
inductive Value where
  | vnone
  | vint (n : Int)
  | vbool (b : Bool)
  | vstr (s : String)
  | vlist (l : List Value)

/-- Python's `value is None` identity test. -/
def Value.isNone : Value → Bool
  | .vnone => true
  | _ => false

/-- Python truthiness `bool(v)` for the modelled values. -/
def truthy : Value → Bool
  | .vnone => false
  | .vint n => n != 0
  | .vbool b => b
  | .vstr s => s != ""
  | .vlist l => !l.isEmpty

/-- Python equality test `v == 0` (so `v != 0` is its negation):
`0 == 0`, `False == 0` (bools are ints in Python); every other modelled
value compares unequal to `0`. -/
def pyEqZero : Value → Bool
  | .vint n => n == 0
  | .vbool b => !b
  | _ => false

/-- A cache entry: the dict `{'data': ..., 'tags': ..., 'ttl': ...}`
built by `set`.  `ttl` holds the absolute expiry timestamp
(`None` = never expires). -/
structure Entry where
  data : Value
  tags : List String
  ttl : Option Int

/-- The `tags` argument of `set`/`get_tags`: Python `None`, a `str`,
or a `list` of strings. -/
inductive TagsArg where
  | tnone
  | tstr (s : String)
  | tlist (l : List String)
deriving DecidableEq, Repr

/-- The state of the `Cache` singleton plus the filesystem it writes.
`max_size` is `__max_size` (already scaled to bytes by `setMaxSize`),
`cache_dir` is `__cache_dir`, `default_ttl` is `__default_ttl`,
`cache_data` is `__cache_data`, and `disk` models the persisted files. -/
structure State where
  max_size : Option Int
  cache_dir : Option String
  default_ttl : Option Int
  cache_data : List (String × Option Entry)
  disk : List (String × Option Entry)

/-- Lookup in an insertion-ordered association list (Python `d[k]` /
`k in d`). -/
def alookup {α : Type} : List (String × α) → String → Option α
  | [], _ => none
  | (k, v) :: rest, key => if k = key then some v else alookup rest key

/-- Assignment `d[k] = v` on an ordered dict: an existing key keeps its
position and gets the new value; a new key is appended at the end. -/
def ainsert {α : Type} : List (String × α) → String → α → List (String × α)
  | [], key, v => [(key, v)]
  | (k, w) :: rest, key, v =>
    if k = key then (key, v) :: rest else (k, w) :: ainsert rest key v

/-- Deletion `del d[k]` (removes the first, hence only, binding). -/
def aremove {α : Type} : List (String × α) → String → List (String × α)
  | [], _ => []
  | (k, w) :: rest, key =>
    if k = key then rest else (k, w) :: aremove rest key

/-- `hasDiskCache` (lines 87-101): with a configured `cache_dir`, test
whether the file for `key` exists; otherwise `False`. -/
def hasDiskCache (s : State) (key : String) : Bool :=
  s.cache_dir.isSome && (alookup s.disk key).isSome

/-- `getDiskCache` (lines 69-85): `ret = None`; if `hasDiskCache`,
unpickle the stored blob (which is whatever `setDiskCache` pickled,
possibly the Python `None` a polluted map held). -/
def getDiskCache (s : State) (key : String) : Option Entry :=
  if hasDiskCache s key then (alookup s.disk key).getD none else none

/-- The surviving `setDiskCache(key)` (lines 54-67): with a configured
`cache_dir`, pickle `self.__cache_data[key]` to the key's file
(raising `KeyError` if the key is not in the map); otherwise a no-op. -/
def setDiskCache (s : State) (key : String) : Except PyErr Unit × State :=
  match s.cache_dir with
  | none => (.ok (), s)
  | some _ =>
    match alookup s.cache_data key with
    | some v => (.ok (), { s with disk := ainsert s.disk key v })
    | none => (.error .keyError, s)

/-- `deleteDiskCache` (lines 103-114): with a configured `cache_dir`,
remove the key's file if it exists; otherwise a no-op. -/
def deleteDiskCache (s : State) (key : String) : State :=
  match s.cache_dir with
  | none => s
  | some _ => { s with disk := aremove s.disk key }

/-- `sys.getsizeof` of a stored value (CPython 64-bit shallow sizes). -/
def getsizeofValue : Value → Int
  | .vnone => 16
  | .vint _ => 28
  | .vbool _ => 28
  | .vstr s => 49 + s.length
  | .vlist l => 56 + 8 * l.length

/-- `sys.getsizeof` of a map value: Python `None` is 16 bytes, the
three-element entry dict is 184 bytes (shallow size). -/
def getsizeofStored : Option Entry → Int
  | none => 16
  | some _ => 184

/-- `sys.getsizeof(self.__cache_dir)`: `None` is 16 bytes, a string of
length `n` is `49 + n` bytes. -/
def getsizeofDir : Option String → Int
  | none => 16
  | some d => 49 + (d.length : Int)

/-- `setMaxSize` (lines 34-42): `__max_size = max_size * 1024 * 1024`
(MB scaled to bytes), or `None`. -/
def setMaxSize (m : Option Int) (s : State) : State :=
  { s with max_size := m.map (fun x => x * 1024 * 1024) }

/-- `setDefaultTTL` (lines 44-52): stores `ttl` as given. -/
def setDefaultTTL (t : Option Int) (s : State) : State :=
  { s with default_ttl := t }

/-- The eviction trigger of `set` (line 134):
`sys.getsizeof(self.__cache_dir) / 1024**2 >= self.__max_size`.
The float comparison is exact for the magnitudes involved, so it is
equivalent to `getsizeofDir ≥ max_size * 2^20` over the integers.
Note that it measures the size of the `__cache_dir` field, not of
`__cache_data`. -/
def evictTriggered (s : State) : Bool :=
  match s.max_size with
  | none => false
  | some m => decide (m * 1048576 ≤ getsizeofDir s.cache_dir)

/-- The eviction loop of `set` (lines 135-141) under CPython
`OrderedDict` iterator semantics: the first entry is always deleted and
its (shallow dict) size accumulated; the loop then breaks if
`clear_size >= over_size`, terminates by exhaustion if the map held a
single entry, and otherwise raises `RuntimeError` (mutation during
iteration). -/
def evictLoop (over : Int) :
    List (String × Option Entry) →
    Except PyErr Unit × List (String × Option Entry)
  | [] => (.ok (), [])
  | (_, v) :: rest =>
    if over ≤ getsizeofStored v then (.ok (), rest)
    else if rest.isEmpty then (.ok (), rest)
    else (.error .runtimeError, rest)

/-- TTL resolution of `set` (lines 143-146): `ttl is None` applies the
default TTL when configured and positive; an explicit `ttl` yields
`now + ttl` when positive, else `None` (never expires). -/
def resolveTtl (now : Int) (ttlArg : Option Int) (default_ttl : Option Int) :
    Option Int :=
  match ttlArg with
  | none =>
    match default_ttl with
    | some d => if 0 < d then some (now + d) else none
    | none => none
  | some t => if 0 < t then some (now + t) else none

/-- Tag normalization of `set` (line 150):
`[tags] if isinstance(tags, str) else tags if tags is not None else []`. -/
def normTags : TagsArg → List String
  | .tnone => []
  | .tstr s => [s]
  | .tlist l => l

/-- `set` (lines 116-157).  A `None` value returns `None` without any
mutation; otherwise the eviction branch may run (and may raise
`RuntimeError`), the entry is built and assigned, `setDiskCache` runs,
and the stored `data` is returned.  Python's default for `ttl` is `0`,
i.e. a call that leaves `ttl` unspecified corresponds to
`ttlArg = some 0`. -/
def set (now : Int) (key : String) (value : Value) (ttlArg : Option Int)
    (tags : TagsArg) (s : State) : Except PyErr Value × State :=
  if value.isNone then (.ok .vnone, s)
  else
    let step1 : Except PyErr Unit × State :=
      if evictTriggered s then
        match s.max_size with
        | some m =>
          let over := getsizeofDir s.cache_dir - m - getsizeofValue value
          let r := evictLoop over s.cache_data
          (r.1, { s with cache_data := r.2 })
        | none => (.ok (), s)
      else (.ok (), s)
    match step1 with
    | (.error e, s1) => (.error e, s1)
    | (.ok _, s1) =>
      let entry : Entry :=
        ⟨value, normTags tags, resolveTtl now ttlArg s1.default_ttl⟩
      let s2 := { s1 with cache_data := ainsert s1.cache_data key (some entry) }
      match setDiskCache s2 key with
      | (.error e, s3) => (.error e, s3)
      | (.ok _, s3) => (.ok value, s3)

/-- `get` (lines 173-192).  On a miss the map is polluted with
`self.getDiskCache(key)` (possibly Python `None`); then the entry is
read back, expired entries are deleted from memory and disk, and
subscripting a polluted `None` raises `TypeError`. -/
def get (now : Int) (key : String) (dflt : Value) (s : State) :
    Except PyErr Value × State :=
  let s1 :=
    if (alookup s.cache_data key).isNone then
      { s with cache_data := ainsert s.cache_data key (getDiskCache s key) }
    else s
  match alookup s1.cache_data key with
  | none => (.ok dflt, s1)
  | some none => (.error .typeError, s1)
  | some (some e) =>
    match e.ttl with
    | some t =>
      if t < now then
        (.ok dflt,
          deleteDiskCache { s1 with cache_data := aremove s1.cache_data key } key)
      else (.ok e.data, s1)
    | none => (.ok e.data, s1)

/-- `delete` (lines 194-204): removes the in-memory entry if present and
only then calls `deleteDiskCache`; always returns `True`. -/
def delete (key : String) (s : State) : Except PyErr Bool × State :=
  match alookup s.cache_data key with
  | some _ =>
    (.ok true, deleteDiskCache { s with cache_data := aremove s.cache_data key } key)
  | none => (.ok true, s)

/-- `has` (lines 206-217): `value = self.get(key, None)`, then
`bool(value) if value != 0 else True`. -/
def has (now : Int) (key : String) (s : State) : Except PyErr Bool × State :=
  match get now key .vnone s with
  | (.error e, s1) => (.error e, s1)
  | (.ok v, s1) => (.ok (if pyEqZero v then true else truthy v), s1)

/-- `set_ttl` (lines 219-233): forces a `get`, then if the key is in the
map, mutates the entry's `'ttl'` in place; `setDiskCache(key)` runs
unconditionally afterwards (outside the `if`). -/
def set_ttl (now : Int) (key : String) (ttl : Int) (s : State) :
    Except PyErr Unit × State :=
  match get now key .vnone s with
  | (.error e, s1) => (.error e, s1)
  | (.ok _, s1) =>
    let s2 :=
      match alookup s1.cache_data key with
      | some (some e) =>
        let e2 : Option Entry :=
          some { e with ttl := if 0 < ttl then some (now + ttl) else none }
        { s1 with cache_data := ainsert s1.cache_data key e2 }
      | _ => s1
    match setDiskCache s2 key with
    | (.error e, s3) => (.error e, s3)
    | (.ok _, s3) => (.ok (), s3)

/-- `get_ttl` (lines 235-248): forces a `get`; present with a positive
absolute `'ttl'` returns `ttl - now`, present otherwise returns `-1`,
absent returns Python `None`. -/
def get_ttl (now : Int) (key : String) (s : State) :
    Except PyErr (Option Int) × State :=
  match get now key .vnone s with
  | (.error e, s1) => (.error e, s1)
  | (.ok _, s1) =>
    match alookup s1.cache_data key with
    | some (some e) =>
      match e.ttl with
      | some t => if 0 < t then (.ok (some (t - now)), s1) else (.ok (some (-1)), s1)
      | none => (.ok (some (-1)), s1)
    | some none => (.error .typeError, s1)
    | none => (.ok none, s1)

/-- `clear` (lines 250-266): empties the map; with a configured
`cache_dir` it then calls `os.listdir(self.__cache_data)` — passing the
`OrderedDict` as a path — which raises `TypeError`. -/
def clear (s : State) : Except PyErr Unit × State :=
  let s1 := { s with cache_data := [] }
  match s1.cache_dir with
  | none => (.ok (), s1)
  | some _ => (.error .typeError, s1)

/-- The sweep of `delete_expired` over the snapshot
`list(self.__cache_data.keys())`; subscripting a polluted `None` value
raises `TypeError`. -/
def delete_expiredLoop (now : Int) :
    List String → State → Except PyErr Unit × State
  | [], s => (.ok (), s)
  | key :: rest, s =>
    match alookup s.cache_data key with
    | some (some e) =>
      match e.ttl with
      | some t =>
        if t < now then
          delete_expiredLoop now rest
            (deleteDiskCache { s with cache_data := aremove s.cache_data key } key)
        else delete_expiredLoop now rest s
      | none => delete_expiredLoop now rest s
    | some none => (.error .typeError, s)
    | none => delete_expiredLoop now rest s

/-- `delete_expired` (lines 268-276). -/
def delete_expired (now : Int) (s : State) : Except PyErr Unit × State :=
  delete_expiredLoop now (s.cache_data.map Prod.fst) s

/-- The loop of `get_tags` (lines 288-291).  The condition is
`tags is None or (isinstance(tags, list) and
set(tags).intersection(set(entry['tags'])))`: a string argument makes
the condition false for every entry (no normalization happens), `None`
short-circuits to true for every entry, and only the list branch reads
`entry['tags']`.  Reading `['data']` or `['tags']` of a polluted `None`
raises `TypeError`. -/
def get_tagsLoop (tags : TagsArg) :
    List (String × Option Entry) → Except PyErr (List Value)
  | [] => .ok []
  | (_, v) :: rest =>
    match tags with
    | .tnone =>
      match v with
      | some e => (get_tagsLoop .tnone rest).map (fun l => e.data :: l)
      | none => .error .typeError
    | .tstr _ => get_tagsLoop tags rest
    | .tlist l =>
      match v with
      | some e =>
        if l.any (fun t => e.tags.contains t) then
          (get_tagsLoop tags rest).map (fun r => e.data :: r)
        else get_tagsLoop tags rest
      | none => .error .typeError

/-- `get_tags` (lines 278-292): read-only over the in-memory map. -/
def get_tags (tags : TagsArg) (s : State) : Except PyErr (List Value) :=
  get_tagsLoop tags s.cache_data

/-- `get_keys` (lines 294-301). -/
def get_keys (s : State) : List String :=
  s.cache_data.map Prod.fst

/-- The pristine singleton: all configuration fields are `None`, the map
is empty; `d0` is whatever the filesystem already holds. -/
def initState (d0 : List (String × Option Entry)) : State :=
  ⟨none, none, none, [], d0⟩

/-- One public API call, as a relation between the state before and the
state after the call (the state after is taken whether the call returned
normally or raised, since a raise keeps the mutations made so far).
`add` is a literal alias of `set` and `get_tags`/`get_keys`/`get_size`/
`get_count` do not mutate the state, so they need no constructor. -/
inductive Step : State → State → Prop where
  | stepSetMaxSize (s : State) (m : Option Int) : Step s (setMaxSize m s)
  | stepSetDefaultTTL (s : State) (t : Option Int) : Step s (setDefaultTTL t s)
  | stepSetDiskCache (s : State) (k : String) : Step s (setDiskCache s k).2
  | stepSet (s : State) (now : Int) (k : String) (v : Value) (t : Option Int)
      (g : TagsArg) : Step s (set now k v t g s).2
  | stepGet (s : State) (now : Int) (k : String) (d : Value) :
      Step s (get now k d s).2
  | stepDelete (s : State) (k : String) : Step s (delete k s).2
  | stepHas (s : State) (now : Int) (k : String) : Step s (has now k s).2
  | stepSetTtl (s : State) (now : Int) (k : String) (t : Int) :
      Step s (set_ttl now k t s).2
  | stepGetTtl (s : State) (now : Int) (k : String) : Step s (get_ttl now k s).2
  | stepClear (s : State) : Step s (clear s).2
  | stepDeleteExpired (s : State) (now : Int) : Step s (delete_expired now s).2

/-- States reachable from the pristine singleton (with initial
filesystem contents `d0`) through the public API. -/
inductive Reachable (d0 : List (String × Option Entry)) : State → Prop where
  | init : Reachable d0 (initState d0)
  | step {s t : State} : Reachable d0 s → Step s t → Reachable d0 t

/-! ## Association-list lemmas -/

theorem alookup_ainsert_self {α : Type} (m : List (String × α)) (k : String)
    (v : α) : alookup (ainsert m k v) k = some v := by
  induction m with
  | nil => simp [ainsert, alookup]
  | cons p rest ih =>
    obtain ⟨k1, v1⟩ := p
    by_cases hk : k1 = k
    · simp [ainsert, hk, alookup]
    · simp [ainsert, hk, alookup, ih]

theorem alookup_ainsert_ne {α : Type} (m : List (String × α)) (k k2 : String)
    (v : α) (h : k2 ≠ k) : alookup (ainsert m k v) k2 = alookup m k2 := by
  have h2 : ¬ k = k2 := fun hh => h hh.symm
  induction m with
  | nil => simp [ainsert, alookup, h2]
  | cons p rest ih =>
    obtain ⟨k1, v1⟩ := p
    by_cases hk : k1 = k
    · subst hk
      simp [ainsert, alookup, h2]
    · simp [ainsert, hk, alookup, ih]

theorem map_fst_ainsert_of_isSome {α : Type} (m : List (String × α))
    (k : String) (v : α) (h : (alookup m k).isSome = true) :
    (ainsert m k v).map Prod.fst = m.map Prod.fst := by
  induction m with
  | nil => simp [alookup] at h
  | cons p rest ih =>
    obtain ⟨k1, v1⟩ := p
    by_cases hk : k1 = k
    · subst hk; simp [ainsert]
    · rw [alookup, if_neg hk] at h
      simp [ainsert, hk, ih h]

theorem map_fst_ainsert_of_none {α : Type} (m : List (String × α))
    (k : String) (v : α) (h : alookup m k = none) :
    (ainsert m k v).map Prod.fst = m.map Prod.fst ++ [k] := by
  induction m with
  | nil => simp [ainsert]
  | cons p rest ih =>
    obtain ⟨k1, v1⟩ := p
    by_cases hk : k1 = k
    · rw [alookup, if_pos hk] at h; cases h
    · rw [alookup, if_neg hk] at h
      simp [ainsert, hk, ih h]

/-! ## Small facts about the translated helpers -/

theorem setDiskCache_dir_none (s : State) (k : String)
    (h : s.cache_dir = none) : setDiskCache s k = (.ok (), s) := by
  unfold setDiskCache; rw [h]

theorem deleteDiskCache_dir_none (s : State) (k : String)
    (h : s.cache_dir = none) : deleteDiskCache s k = s := by
  unfold deleteDiskCache; rw [h]

theorem getDiskCache_dir_none (s : State) (k : String)
    (h : s.cache_dir = none) : getDiskCache s k = none := by
  unfold getDiskCache hasDiskCache; rw [h]; rfl

theorem setDiskCache_found (s : State) (k : String) (v : Option Entry)
    (h : alookup s.cache_data k = some v) :
    setDiskCache s k =
      (.ok (),
        match s.cache_dir with
        | none => s
        | some _ => { s with disk := ainsert s.disk k v }) := by
  unfold setDiskCache
  rcases s.cache_dir <;> simp [h]

/-- The stored `expiresAt` computed by `set` is never in the past at the
moment of the `set`: it is `None` or `now` plus a positive delay. -/
theorem resolveTtl_never_past (now : Int) (a d : Option Int) :
    resolveTtl now a d = none ∨
    ∃ t, 0 < t ∧ resolveTtl now a d = some (now + t) := by
  unfold resolveTtl
  rcases a with _ | t
  · rcases d with _ | dv
    · exact Or.inl rfl
    · by_cases hd : 0 < dv
      · exact Or.inr ⟨dv, hd, by simp [hd]⟩
      · simp [hd]
  · by_cases ht : 0 < t
    · exact Or.inr ⟨t, ht, by simp [ht]⟩
    · simp [ht]

/-- `get` on a present, not-expired entry returns its data and leaves the
state alone. -/
theorem get_hit (now : Int) (k : String) (d : Value) (s : State) (e : Entry)
    (h : alookup s.cache_data k = some (some e))
    (hns : ∀ t, e.ttl = some t → ¬ t < now) :
    get now k d s = (.ok e.data, s) := by
  have hn : (alookup s.cache_data k).isNone = false := by rw [h]; rfl
  unfold get
  rw [hn]
  simp only [Bool.false_eq_true, if_false]
  rw [h]
  rcases ht : e.ttl with _ | t
  · simp [ht]
  · simp [ht, hns t ht]

/-! ## Behaviour of `set` -/

/-- `set` outside the eviction branch: the entry is inserted in place,
the configuration fields are untouched, and without a `cache_dir` the
disk is untouched too. -/
theorem set_no_evict (now : Int) (k : String) (v : Value) (t : Option Int)
    (g : TagsArg) (s : State) (hv : v.isNone = false)
    (hev : evictTriggered s = false) :
    (set now k v t g s).1 = .ok v ∧
    (set now k v t g s).2.cache_data =
      ainsert s.cache_data k (some ⟨v, normTags g, resolveTtl now t s.default_ttl⟩) ∧
    (set now k v t g s).2.cache_dir = s.cache_dir ∧
    (set now k v t g s).2.max_size = s.max_size ∧
    (set now k v t g s).2.default_ttl = s.default_ttl ∧
    (s.cache_dir = none → (set now k v t g s).2.disk = s.disk) := by
  unfold set
  simp only [hv, Bool.false_eq_true, if_false, hev]
  rw [setDiskCache_found _ k _ (alookup_ainsert_self s.cache_data k _)]
  rcases s.cache_dir with _ | dir
  · simp
  · simp

/-- `set` when the eviction loop raises `RuntimeError`: the call aborts
with the first (oldest) entry already deleted and nothing inserted. -/
theorem set_evict_err (now : Int) (k : String) (v : Value) (t : Option Int)
    (g : TagsArg) (s : State) (m : Int) (mem2 : List (String × Option Entry))
    (e : PyErr) (hv : v.isNone = false) (hev : evictTriggered s = true)
    (hm : s.max_size = some m)
    (hl : evictLoop (getsizeofDir s.cache_dir - m - getsizeofValue v) s.cache_data =
      (.error e, mem2)) :
    set now k v t g s = (.error e, { s with cache_data := mem2 }) := by
  unfold set
  simp only [hv, Bool.false_eq_true, if_false, hev, if_true, hm, hl]

/-- `set` when the eviction loop terminates normally. -/
theorem set_evict_ok (now : Int) (k : String) (v : Value) (t : Option Int)
    (g : TagsArg) (s : State) (m : Int) (mem2 : List (String × Option Entry))
    (hv : v.isNone = false) (hev : evictTriggered s = true)
    (hm : s.max_size = some m)
    (hl : evictLoop (getsizeofDir s.cache_dir - m - getsizeofValue v) s.cache_data =
      (.ok (), mem2)) :
    (set now k v t g s).1 = .ok v ∧
    (set now k v t g s).2.cache_data =
      ainsert mem2 k (some ⟨v, normTags g, resolveTtl now t s.default_ttl⟩) ∧
    (set now k v t g s).2.cache_dir = s.cache_dir ∧
    (s.cache_dir = none → (set now k v t g s).2.disk = s.disk) := by
  unfold set
  simp only [hv, Bool.false_eq_true, if_false, hev, if_true, hm, hl]
  rw [setDiskCache_found _ k _ (alookup_ainsert_self mem2 k _)]
  rcases s.cache_dir with _ | dir
  · simp
  · simp

/-- Any `set` of a non-`None` value that returns normally returns the
value and leaves the freshly built entry under the key. -/
theorem set_ok_lookup (now : Int) (k : String) (v : Value) (t : Option Int)
    (g : TagsArg) (s : State) (hv : v.isNone = false)
    (hok : ∃ u, (set now k v t g s).1 = Except.ok u) :
    (set now k v t g s).1 = .ok v ∧
    alookup (set now k v t g s).2.cache_data k =
      some (some ⟨v, normTags g, resolveTtl now t s.default_ttl⟩) := by
  cases hev : evictTriggered s with
  | false =>
    obtain ⟨h1, h2, _⟩ := set_no_evict now k v t g s hv hev
    exact ⟨h1, by rw [h2]; exact alookup_ainsert_self _ _ _⟩
  | true =>
    rcases hm : s.max_size with _ | m
    · exfalso; simp [evictTriggered, hm] at hev
    · rcases hl : evictLoop (getsizeofDir s.cache_dir - m - getsizeofValue v) s.cache_data
        with ⟨r, mem2⟩
      rcases r with e | u0
      · exfalso
        obtain ⟨u, hu⟩ := hok
        rw [set_evict_err now k v t g s m mem2 e hv hev hm hl] at hu
        cases hu
      · cases u0
        obtain ⟨h1, h2, _⟩ := set_evict_ok now k v t g s m mem2 hv hev hm hl
        exact ⟨h1, by rw [h2]; exact alookup_ainsert_self _ _ _⟩

/-- `set` with the value `None` returns at the `value is None` guard:
result `None`, state untouched. -/
theorem set_vnone_noop (now : Int) (k : String) (t : Option Int) (g : TagsArg)
    (s : State) : set now k .vnone t g s = (.ok .vnone, s) := by
  unfold set; rfl

/-! ## Frame lemmas: no operation ever sets `cache_dir`, and with
`cache_dir = None` no operation touches the filesystem -/

theorem set_frame (now : Int) (k : String) (v : Value) (t : Option Int)
    (g : TagsArg) (s : State) (h : s.cache_dir = none) :
    (set now k v t g s).2.cache_dir = none ∧ (set now k v t g s).2.disk = s.disk := by
  cases hv : v.isNone with
  | true =>
    have hvn : v = .vnone := by cases v <;> simp [Value.isNone] at hv ⊢
    rw [hvn, set_vnone_noop]
    exact ⟨h, rfl⟩
  | false =>
    cases hev : evictTriggered s with
    | false =>
      obtain ⟨_, _, h3, _, _, h6⟩ := set_no_evict now k v t g s hv hev
      exact ⟨h3.trans h, h6 h⟩
    | true =>
      rcases hm : s.max_size with _ | m
      · exact absurd hev (by simp [evictTriggered, hm])
      · rcases hl : evictLoop (getsizeofDir s.cache_dir - m - getsizeofValue v) s.cache_data
          with ⟨r, mem2⟩
        rcases r with e | u0
        · rw [set_evict_err now k v t g s m mem2 e hv hev hm hl]
          exact ⟨h, rfl⟩
        · cases u0
          obtain ⟨_, _, h3, h4⟩ := set_evict_ok now k v t g s m mem2 hv hev hm hl
          exact ⟨h3.trans h, h4 h⟩

/-- Every state `get` can leave behind differs from the input state only
in `cache_data`, except for a possible `deleteDiskCache` on expiry. -/
theorem get_state_shape (now : Int) (k : String) (d : Value) (s : State) :
    ∃ mem, (get now k d s).2 = { s with cache_data := mem } ∨
           (get now k d s).2 = deleteDiskCache { s with cache_data := mem } k := by
  unfold get
  cases hmiss : (alookup s.cache_data k).isNone with
  | true =>
    simp only [hmiss, if_true]
    rcases hl : alookup (ainsert s.cache_data k (getDiskCache s k)) k with _ | w
    · simp only [hl]
      exact ⟨ainsert s.cache_data k (getDiskCache s k), Or.inl rfl⟩
    · rcases w with _ | e
      · simp only [hl]
        exact ⟨ainsert s.cache_data k (getDiskCache s k), Or.inl rfl⟩
      · simp only [hl]
        rcases ht : e.ttl with _ | tt
        · simp only [ht]
          exact ⟨ainsert s.cache_data k (getDiskCache s k), Or.inl rfl⟩
        · simp only [ht]
          by_cases hlt : tt < now
          · simp only [hlt, if_true]
            exact ⟨aremove (ainsert s.cache_data k (getDiskCache s k)) k, Or.inr rfl⟩
          · simp only [hlt, if_false]
            exact ⟨ainsert s.cache_data k (getDiskCache s k), Or.inl rfl⟩
  | false =>
    simp only [hmiss, Bool.false_eq_true, if_false]
    rcases hl : alookup s.cache_data k with _ | w
    · simp only [hl]
      exact ⟨s.cache_data, Or.inl rfl⟩
    · rcases w with _ | e
      · simp only [hl]
        exact ⟨s.cache_data, Or.inl rfl⟩
      · simp only [hl]
        rcases ht : e.ttl with _ | tt
        · simp only [ht]
          exact ⟨s.cache_data, Or.inl rfl⟩
        · simp only [ht]
          by_cases hlt : tt < now
          · simp only [hlt, if_true]
            exact ⟨aremove s.cache_data k, Or.inr rfl⟩
          · simp only [hlt, if_false]
            exact ⟨s.cache_data, Or.inl rfl⟩

theorem get_frame (now : Int) (k : String) (d : Value) (s : State)
    (h : s.cache_dir = none) :
    (get now k d s).2.cache_dir = none ∧ (get now k d s).2.disk = s.disk := by
  obtain ⟨mem, hc | hc⟩ := get_state_shape now k d s
  · rw [hc]; exact ⟨h, rfl⟩
  · rw [hc, deleteDiskCache_dir_none { s with cache_data := mem } k h]
    exact ⟨h, rfl⟩

theorem has_frame (now : Int) (k : String) (s : State) (h : s.cache_dir = none) :
    (has now k s).2.cache_dir = none ∧ (has now k s).2.disk = s.disk := by
  have hg := get_frame now k .vnone s h
  unfold has
  rcases hr : get now k .vnone s with ⟨r, s1⟩
  rw [hr] at hg
  rcases r with e | v0 <;> exact hg

theorem delete_frame (k : String) (s : State) (h : s.cache_dir = none) :
    (delete k s).2.cache_dir = none ∧ (delete k s).2.disk = s.disk := by
  unfold delete
  rcases hl : alookup s.cache_data k with _ | w
  · simp [hl, h]
  · simp only [hl]
    rw [deleteDiskCache_dir_none { s with cache_data := aremove s.cache_data k } k h]
    simp [h]

theorem set_ttl_frame (now : Int) (k : String) (tt : Int) (s : State)
    (h : s.cache_dir = none) :
    (set_ttl now k tt s).2.cache_dir = none ∧ (set_ttl now k tt s).2.disk = s.disk := by
  have hg := get_frame now k .vnone s h
  unfold set_ttl
  rcases hr : get now k .vnone s with ⟨r, s1⟩
  rw [hr] at hg
  have hg1 : s1.cache_dir = none := hg.1
  have hg2 : s1.disk = s.disk := hg.2
  rcases r with e | v0
  · exact ⟨hg1, hg2⟩
  · rcases hl : alookup s1.cache_data k with _ | w
    · simp only [hl]
      rw [setDiskCache_dir_none s1 k hg1]
      exact ⟨hg1, hg2⟩
    · rcases w with _ | e2
      · simp only [hl]
        rw [setDiskCache_dir_none s1 k hg1]
        exact ⟨hg1, hg2⟩
      · simp only [hl]
        have harg : ({ s1 with cache_data := ainsert s1.cache_data k (some { e2 with ttl := if 0 < tt then some (now + tt) else none }) } : State).cache_dir = none := hg1
        rw [setDiskCache_dir_none _ k harg]
        simp [hg1, hg2]

theorem get_ttl_frame (now : Int) (k : String) (s : State)
    (h : s.cache_dir = none) :
    (get_ttl now k s).2.cache_dir = none ∧ (get_ttl now k s).2.disk = s.disk := by
  have hg := get_frame now k .vnone s h
  unfold get_ttl
  rcases hr : get now k .vnone s with ⟨r, s1⟩
  rw [hr] at hg
  rcases r with e | v0
  · exact hg
  · rcases hl : alookup s1.cache_data k with _ | w
    · simp only [hl]; exact hg
    · rcases w with _ | e2
      · simp only [hl]; exact hg
      · simp only [hl]
        rcases ht : e2.ttl with _ | t2
        · simp only [ht]; exact hg
        · simp only [ht]
          by_cases h0 : 0 < t2
          · simp only [h0, if_true]; exact hg
          · simp only [h0, if_false]; exact hg

theorem clear_frame (s : State) (h : s.cache_dir = none) :
    (clear s).2.cache_dir = none ∧ (clear s).2.disk = s.disk := by
  have hc : clear s = (.ok (), { s with cache_data := [] }) := by
    unfold clear
    have h2 : ({ s with cache_data := ([] : List (String × Option Entry)) }).cache_dir = none := h
    rw [h2]
  rw [hc]
  exact ⟨h, rfl⟩

theorem delete_expiredLoop_frame (now : Int) (ks : List String) (s : State)
    (h : s.cache_dir = none) :
    (delete_expiredLoop now ks s).2.cache_dir = none ∧
    (delete_expiredLoop now ks s).2.disk = s.disk := by
  induction ks generalizing s with
  | nil => exact ⟨h, rfl⟩
  | cons k rest ih =>
    unfold delete_expiredLoop
    rcases hl : alookup s.cache_data k with _ | w
    · simp only [hl]; exact ih s h
    · rcases w with _ | e
      · simp only [hl]; exact ⟨h, by simp⟩
      · simp only [hl]
        rcases ht : e.ttl with _ | t
        · simp only [ht]; exact ih s h
        · simp only [ht]
          by_cases hlt : t < now
          · simp only [hlt, if_true]
            rw [deleteDiskCache_dir_none { s with cache_data := aremove s.cache_data k } k h]
            exact ih { s with cache_data := aremove s.cache_data k } h
          · simp only [hlt, if_false]
            exact ih s h

theorem delete_expired_frame (now : Int) (s : State) (h : s.cache_dir = none) :
    (delete_expired now s).2.cache_dir = none ∧
    (delete_expired now s).2.disk = s.disk :=
  delete_expiredLoop_frame now (s.cache_data.map Prod.fst) s h

/-- The presence value `has` computes for a stored value, written out by
cases: ints and bools always count as present (both `0` and `False`
compare equal to `0` in Python), strings and lists are present iff
non-empty, `None` is absent. -/
def storedPresence : Value → Bool
  | .vnone => false
  | .vint _ => true
  | .vbool _ => true
  | .vstr s => s != ""
  | .vlist l => !l.isEmpty

theorem presence_branch (v : Value) :
    (if pyEqZero v = true then true else truthy v) = storedPresence v := by
  cases v with
  | vnone => rfl
  | vint n => by_cases h : n = 0 <;> simp [pyEqZero, truthy, storedPresence, h]
  | vbool b => cases b <;> rfl
  | vstr s => rfl
  | vlist l => rfl

theorem get_tagsLoop_str (str : String) (m : List (String × Option Entry)) :
    get_tagsLoop (.tstr str) m = .ok [] := by
  induction m with
  | nil => rfl
  | cons p rest ih =>
    obtain ⟨k1, v1⟩ := p
    simpa [get_tagsLoop] using ih

theorem get_tagsLoop_none_clean (m : List (String × Option Entry))
    (hclean : ∀ p ∈ m, p.2 ≠ none) :
    get_tagsLoop .tnone m = .ok ((m.filterMap Prod.snd).map Entry.data) := by
  induction m with
  | nil => rfl
  | cons p rest ih =>
    obtain ⟨k1, v1⟩ := p
    rcases v1 with _ | e
    · exact absurd rfl (hclean (k1, none) (List.mem_cons_self _ _))
    · have hr := ih (fun q hq => hclean q (List.mem_cons_of_mem _ hq))
      simp [get_tagsLoop, hr, List.filterMap_cons, Except.map]

theorem get_tagsLoop_list_clean (l : List String) (m : List (String × Option Entry))
    (hclean : ∀ p ∈ m, p.2 ≠ none) :
    get_tagsLoop (.tlist l) m =
      .ok ((m.filterMap Prod.snd).filterMap
        (fun e => if l.any (fun t2 => e.tags.contains t2) then some e.data else none)) := by
  induction m with
  | nil => rfl
  | cons p rest ih =>
    obtain ⟨k1, v1⟩ := p
    rcases v1 with _ | e
    · exact absurd rfl (hclean (k1, none) (List.mem_cons_self _ _))
    · have hr := ih (fun q hq => hclean q (List.mem_cons_of_mem _ hq))
      simp only [get_tagsLoop, hr, List.filterMap_cons, Except.map]
      cases hm2 : l.any (fun t2 => e.tags.contains t2) with
      | true => rfl
      | false => rfl

/-! ## The claims -/

/-- C1: the claim says that for a key absent from memory and not
recoverable from the backing store, `get(key, default)` returns the
caller-supplied default.  The code instead executes
`self.__cache_data[key] = self.getDiskCache(key)`, storing Python `None`
under the key, and then subscripts it (`...[key]['ttl']`), raising
`TypeError`; the docstring of `get` promises the default.  This theorem
evaluates the code on that path: the call raises `TypeError` and leaves
the `None` pollution in the map. -/
theorem get_miss_raises (s : State) (now : Int) (k : String) (d : Value)
    (h1 : alookup s.cache_data k = none) (h2 : getDiskCache s k = none) :
    get now k d s =
      (.error .typeError, { s with cache_data := ainsert s.cache_data k none }) := by
  have hmiss : (alookup s.cache_data k).isNone = true := by rw [h1]; rfl
  unfold get
  simp only [hmiss, if_true, h2]
  rw [alookup_ainsert_self]

/-- Witness for C1 at the concrete pristine cache: `get(\"k\", 42)` with
no backing store raises `TypeError` instead of returning `42`. -/
theorem get_miss_raises_witness :
    alookup (initState []).cache_data "k" = none ∧
    getDiskCache (initState []) "k" = none ∧
    get 0 "k" (.vint 42) (initState []) =
      (.error .typeError,
        { initState [] with cache_data := ainsert (initState []).cache_data "k" none }) :=
  ⟨rfl, rfl, get_miss_raises (initState []) 0 "k" (.vint 42) rfl rfl⟩

/-- C2 counterexample: the claim says a stored boolean `False` is
reported as absent, but Python evaluates `False != 0` to `False`
(booleans are ints), so `has` takes the `True` branch: storing `False`
and asking `has` yields `true`, not `false`. -/
theorem has_stored_false_cex :
    (has 0 "k" (set 0 "k" (.vbool false) (some 0) .tnone (initState [])).2).1 =
      .ok true := rfl

/-- C2 (amended): for a stored, unexpired entry, `has` returns `true`
for any value equal to zero — numeric zero AND boolean `False` — and
the value's own truthiness otherwise, so a stored empty string or empty
collection is reported absent while ints and bools are always present
(`storedPresence` spells this out by cases). -/
theorem has_presence (s : State) (now : Int) (k : String) (e : Entry)
    (h : alookup s.cache_data k = some (some e))
    (hns : ∀ t, e.ttl = some t → ¬ t < now) :
    (has now k s).1 = .ok (storedPresence e.data) := by
  have hg := get_hit now k .vnone s e h hns
  have hstep : (has now k s).1 =
      .ok (if pyEqZero e.data = true then true else truthy e.data) := by
    unfold has
    rw [hg]
  rw [hstep, presence_branch]

/-- Witness for C2 at a stored empty string: `has` reports `false`. -/
theorem has_presence_witness :
    (has 5 "w" (set 5 "w" (.vstr "") (some 0) .tnone (initState [])).2).1 =
      .ok (storedPresence (.vstr "")) :=
  has_presence _ 5 "w" ⟨.vstr "", [], none⟩ rfl (fun _ ht => nomatch ht)

/-- C3 counterexample: with `defaultTTLSeconds = 10` configured and
`ttl` left unspecified (Python default `0`, not the `None` sentinel),
the claim demands `expiresAt = now + 10 = 110`; the code stores `None`
(never expires), because only an explicit `ttl=None` reaches the
default-TTL branch. -/
theorem set_unspecified_ttl_cex :
    alookup (set 100 "k" (.vint 1) (some 0) .tnone
        (setDefaultTTL (some 10) (initState []))).2.cache_data "k" =
      some (some ⟨.vint 1, [], none⟩) := rfl

/-- C3 (amended): `set` stores `expiresAt = resolveTtl now ttl default`,
where the default TTL applies only when `ttl` is explicitly the `None`
sentinel (and the default is configured positive); an unspecified `ttl`
equals `0` and, like any non-positive explicit `ttl`, yields a
never-expiring entry; a positive explicit `ttl` yields `now + ttl`. -/
theorem set_ttl_resolution (s : State) (now : Int) (k : String) (v : Value)
    (t : Option Int) (g : TagsArg) (hv : v.isNone = false)
    (hev : evictTriggered s = false) :
    alookup (set now k v t g s).2.cache_data k =
      some (some ⟨v, normTags g, resolveTtl now t s.default_ttl⟩) ∧
    resolveTtl now (some 0) s.default_ttl = none ∧
    (∀ x : Int, 0 < x → resolveTtl now (some x) s.default_ttl = some (now + x)) ∧
    (∀ x : Int, x ≤ 0 → resolveTtl now (some x) s.default_ttl = none) ∧
    (∀ dv : Int, s.default_ttl = some dv → 0 < dv →
      resolveTtl now none s.default_ttl = some (now + dv)) := by
  obtain ⟨_, h2, _⟩ := set_no_evict now k v t g s hv hev
  refine ⟨by rw [h2]; exact alookup_ainsert_self _ _ _, by simp [resolveTtl], ?_, ?_, ?_⟩
  · intro x hx; simp [resolveTtl, hx]
  · intro x hx
    have : ¬ (0 < x) := by omega
    simp [resolveTtl, this]
  · intro dv hdv h0; simp [resolveTtl, hdv, h0]

/-- Witness for C3 at a concrete call with explicit positive ttl. -/
theorem set_ttl_resolution_witness :
    alookup (set 100 "k" (.vint 1) (some 7) .tnone (initState [])).2.cache_data "k" =
      some (some ⟨.vint 1, normTags .tnone, resolveTtl 100 (some 7) none⟩) :=
  (set_ttl_resolution (initState []) 100 "k" (.vint 1) (some 7) .tnone rfl rfl).1

/-- C4: the claim says that with `maxMemoryBytes` configured, inserting
past the cap evicts oldest-first.  The code's trigger compares
`getsizeof(self.__cache_dir)` — 16 bytes, the size of `None` — scaled
by `/ 1024**2` against `__max_size` in bytes, and never measures
`__cache_data`; for any configured cap of at least one byte the trigger
is false and `set` never evicts anything: every key present before a
`set` is still present after it. -/
theorem positive_cap_never_evicts (s : State) (now : Int) (k : String)
    (v : Value) (t : Option Int) (g : TagsArg) (k2 : String)
    (hM : ∀ m, s.max_size = some m → 1 ≤ m)
    (hdir : s.cache_dir = none)
    (h2 : (alookup s.cache_data k2).isSome = true) :
    evictTriggered s = false ∧
    (alookup (set now k v t g s).2.cache_data k2).isSome = true := by
  have hev : evictTriggered s = false := by
    unfold evictTriggered
    rcases hm : s.max_size with _ | m
    · rfl
    · have h1 : 1 ≤ m := hM m hm
      rw [hdir]
      exact decide_eq_false (by simp only [getsizeofDir]; omega)
  refine ⟨hev, ?_⟩
  cases hv : v.isNone with
  | true =>
    have hvn : v = .vnone := by cases v <;> simp [Value.isNone] at hv ⊢
    rw [hvn, set_vnone_noop]
    exact h2
  | false =>
    obtain ⟨_, hmem, _⟩ := set_no_evict now k v t g s hv hev
    rw [hmem]
    by_cases hk : k2 = k
    · subst hk; rw [alookup_ainsert_self]; rfl
    · rw [alookup_ainsert_ne _ _ _ _ hk]; exact h2

/-- A cache configured with `setMaxSize(1)` (1 MB) holding two entries;
the spec's eviction scenario would evict `k1` on the third insert. -/
def sCapWit : State :=
  (set 0 "k2" (.vstr "bbbb") (some 0) .tnone
    (set 0 "k1" (.vstr "aaaa") (some 0) .tnone
      (setMaxSize (some 1) (initState []))).2).2

/-- Witness for C4: with the 1 MB cap configured, inserting `k3` leaves
`k1` (the oldest entry) in place — no eviction happens. -/
theorem positive_cap_never_evicts_witness :
    evictTriggered sCapWit = false ∧
    (alookup (set 0 "k3" (.vstr "cccc") (some 0) .tnone sCapWit).2.cache_data
      "k1").isSome = true :=
  positive_cap_never_evicts sCapWit 0 "k3" (.vstr "cccc") (some 0) .tnone "k1"
    (fun m hm => by
      have hv : sCapWit.max_size = some 1048576 := rfl
      rw [hv] at hm
      injection hm with hh
      omega)
    rfl rfl

/-- A state with a configured backing store holding an entry for `"k"`
that is not materialized in memory. -/
def sBacked : State :=
  ⟨none, some "/tmp/xc", none, [], [("k", some ⟨.vint 1, [], none⟩)]⟩

/-- C5 counterexample: the claim says `delete` issues a backing-store
delete unconditionally, even with no in-memory entry.  On a state with a
configured store, a persisted `"k"`, and no in-memory entry, `delete`
returns `true` but leaves the state — including the persisted file —
completely untouched. -/
theorem delete_skips_backing_store_cex :
    (delete "k" sBacked).1 = .ok true ∧ (delete "k" sBacked).2 = sBacked :=
  ⟨rfl, rfl⟩

/-- C5 (amended): `delete(key)` always returns `true`; it removes the
in-memory entry and issues the backing-store delete only when an
in-memory entry existed, and is a complete no-op otherwise. -/
theorem delete_characterization (s : State) (k : String) :
    delete k s =
      (.ok true,
        if (alookup s.cache_data k).isSome then
          deleteDiskCache { s with cache_data := aremove s.cache_data k } k
        else s) := by
  unfold delete
  rcases hl : alookup s.cache_data k with _ | w
  · simp [hl]
  · simp [hl]

/-- C6: the second class-body definition of `setDiskCache` (the per-key
write helper) shadows the configuration method, so no public call can
set `__cache_dir`: in every state reachable through the public API the
cache directory stays `None` and the filesystem keeps its initial
contents `d0` — the disk helpers are all no-ops. -/
theorem reachable_no_persistence (d0 : List (String × Option Entry)) (s : State)
    (h : Reachable d0 s) : s.cache_dir = none ∧ s.disk = d0 := by
  induction h with
  | init => exact ⟨rfl, rfl⟩
  | step hr hstep ih =>
    rename_i s0 t0
    obtain ⟨h1, h2⟩ := ih
    cases hstep with
    | stepSetMaxSize m => exact ⟨h1, h2⟩
    | stepSetDefaultTTL t => exact ⟨h1, h2⟩
    | stepSetDiskCache k =>
      rw [setDiskCache_dir_none s0 k h1]
      exact ⟨h1, h2⟩
    | stepSet now k v t g =>
      obtain ⟨a, b⟩ := set_frame now k v t g s0 h1
      exact ⟨a, b.trans h2⟩
    | stepGet now k d =>
      obtain ⟨a, b⟩ := get_frame now k d s0 h1
      exact ⟨a, b.trans h2⟩
    | stepDelete k =>
      obtain ⟨a, b⟩ := delete_frame k s0 h1
      exact ⟨a, b.trans h2⟩
    | stepHas now k =>
      obtain ⟨a, b⟩ := has_frame now k s0 h1
      exact ⟨a, b.trans h2⟩
    | stepSetTtl now k t =>
      obtain ⟨a, b⟩ := set_ttl_frame now k t s0 h1
      exact ⟨a, b.trans h2⟩
    | stepGetTtl now k =>
      obtain ⟨a, b⟩ := get_ttl_frame now k s0 h1
      exact ⟨a, b.trans h2⟩
    | stepClear =>
      obtain ⟨a, b⟩ := clear_frame s0 h1
      exact ⟨a, b.trans h2⟩
    | stepDeleteExpired now =>
      obtain ⟨a, b⟩ := delete_expired_frame now s0 h1
      exact ⟨a, b.trans h2⟩

/-- Witness for C6 at a concrete two-step reachable state: after a `set`
on the pristine cache (with a pre-existing file on disk), the cache
directory is still `None` and the disk is unchanged. -/
theorem reachable_no_persistence_witness :
    (set 0 "k" (.vint 1) (some 0) .tnone
      (initState [("old", none)])).2.cache_dir = none ∧
    (set 0 "k" (.vint 1) (some 0) .tnone
      (initState [("old", none)])).2.disk = [("old", none)] :=
  reachable_no_persistence [("old", none)] _
    (Reachable.step Reachable.init
      (Step.stepSet (initState [("old", none)]) 0 "k" (.vint 1) (some 0) .tnone))

/-- C7: for every non-`None` value, a `set(k, v)` that returns normally
returns `v` and an immediate `get(k)` (same clock reading) returns `v`
unchanged, whatever ttl and tags were passed. -/
theorem set_then_get_roundtrip (s : State) (now : Int) (k : String) (v : Value)
    (t : Option Int) (g : TagsArg) (d : Value) (hv : v.isNone = false)
    (hok : ∃ u, (set now k v t g s).1 = Except.ok u) :
    (set now k v t g s).1 = .ok v ∧
    (get now k d (set now k v t g s).2).1 = .ok v := by
  obtain ⟨h1, h2⟩ := set_ok_lookup now k v t g s hv hok
  refine ⟨h1, ?_⟩
  have hns : ∀ tt, (⟨v, normTags g, resolveTtl now t s.default_ttl⟩ : Entry).ttl =
      some tt → ¬ tt < now := by
    intro tt htt
    have htt2 : resolveTtl now t s.default_ttl = some tt := htt
    rcases resolveTtl_never_past now t s.default_ttl with hr | ⟨x, hx, hr⟩
    · rw [hr] at htt2; cases htt2
    · rw [hr] at htt2; injection htt2 with hh; omega
  have hfin := get_hit now k d (set now k v t g s).2 _ h2 hns
  rw [hfin]

/-- Witness for C7 at a concrete store of a string. -/
theorem set_then_get_roundtrip_witness :
    (set 3 "k" (.vstr "hello") (some 0) .tnone (initState [])).1 =
      .ok (.vstr "hello") ∧
    (get 3 "k" .vnone (set 3 "k" (.vstr "hello") (some 0) .tnone
      (initState [])).2).1 = .ok (.vstr "hello") :=
  set_then_get_roundtrip (initState []) 3 "k" (.vstr "hello") (some 0) .tnone
    .vnone rfl ⟨.vstr "hello", rfl⟩

/-- C8: outside the eviction branch, `set` preserves the key order of
the map — an existing key keeps its position (order reflects first
insertion), a new key is appended — and fully replaces the entry
(data, tags, ttl) under the key. -/
theorem set_preserves_insertion_order (s : State) (now : Int) (k : String)
    (v : Value) (t : Option Int) (g : TagsArg) (hv : v.isNone = false)
    (hev : evictTriggered s = false) :
    ((set now k v t g s).2.cache_data.map Prod.fst =
      if (alookup s.cache_data k).isSome then s.cache_data.map Prod.fst
      else s.cache_data.map Prod.fst ++ [k]) ∧
    alookup (set now k v t g s).2.cache_data k =
      some (some ⟨v, normTags g, resolveTtl now t s.default_ttl⟩) := by
  obtain ⟨_, h2, _⟩ := set_no_evict now k v t g s hv hev
  constructor
  · rw [h2]
    by_cases hl : (alookup s.cache_data k).isSome = true
    · rw [if_pos hl]
      exact map_fst_ainsert_of_isSome _ _ _ hl
    · have hln : alookup s.cache_data k = none := by
        rcases hx : alookup s.cache_data k with _ | w
        · rfl
        · rw [hx] at hl; exact absurd rfl hl
      rw [if_neg hl]
      exact map_fst_ainsert_of_none _ _ _ hln
  · rw [h2]; exact alookup_ainsert_self _ _ _

/-- A cache holding `"a"` then `"b"`, in that insertion order. -/
def sOrder : State :=
  (set 0 "b" (.vint 2) (some 0) .tnone
    (set 0 "a" (.vint 1) (some 0) .tnone (initState [])).2).2

/-- Witness for C8: re-setting `"a"` (the older key) with new data,
ttl and tags keeps the key order `[\x22a\x22, \x22b\x22]` and replaces the whole
entry. -/
theorem set_preserves_insertion_order_witness :
    ((set 9 "a" (.vstr "new") (some 5) (.tstr "tg") sOrder).2.cache_data.map
        Prod.fst =
      if (alookup sOrder.cache_data "a").isSome then sOrder.cache_data.map Prod.fst
      else sOrder.cache_data.map Prod.fst ++ ["a"]) ∧
    alookup (set 9 "a" (.vstr "new") (some 5) (.tstr "tg") sOrder).2.cache_data
        "a" =
      some (some ⟨.vstr "new", normTags (.tstr "tg"),
        resolveTtl 9 (some 5) sOrder.default_ttl⟩) :=
  set_preserves_insertion_order sOrder 9 "a" (.vstr "new") (some 5) (.tstr "tg")
    rfl rfl

/-- C9: `set(k, None)` is a perfect no-op returning the `None` sentinel —
nothing stored, no eviction, no backing-store write, the whole state is
unchanged (first conjunct, for every state and arguments).  The claim
additionally says `has(k)` is left `false`; on a fresh cache `has(k)`
instead raises `TypeError` (second conjunct), because `get` crashes on
the missing key — the C1 bug — so the claim's intent (absence) holds in
the sense that nothing was stored, but the stated `false` is never
returned. -/
theorem set_none_noop_and_has :
    (∀ (s : State) (now : Int) (k : String) (t : Option Int) (g : TagsArg),
      set now k .vnone t g s = (.ok .vnone, s)) ∧
    (has 0 "q" (set 0 "q" .vnone (some 0) .tnone (initState [])).2).1 =
      .error .typeError :=
  ⟨fun s now k t g => set_vnone_noop now k t g s, rfl⟩

/-- C10 counterexample: the claim says `get_tags` normalizes a string
argument into a one-element set and an absent/null argument into the
empty set.  The code does neither: with an entry tagged `["x"]`, a
string argument `"x"` returns the empty list (the condition
`isinstance(tags, list)` is false), and a `None` argument returns every
entry instead of none. -/
theorem get_tags_no_normalization_cex :
    get_tags (.tstr "x")
        (set 0 "kx" (.vint 7) (some 0) (.tstr "x") (initState [])).2 = .ok [] ∧
    get_tags .tnone
        (set 0 "kx" (.vint 7) (some 0) (.tstr "x") (initState [])).2 =
      .ok [.vint 7] :=
  ⟨rfl, rfl⟩

/-- C10 (amended): on a map without `None`-polluted values, `get_tags`
with a list argument returns the data of exactly the entries whose tag
list intersects it, in insertion order (so `get_tags([\x22x\x22])` keeps an
entry tagged `\x22x\x22` and drops one tagged only `\x22y\x22`); a string argument
matches nothing and returns `[]`; a `None` argument returns every
entry's data. -/
theorem get_tags_characterization (s : State)
    (hclean : ∀ p ∈ s.cache_data, p.2 ≠ none) :
    (∀ l : List String, get_tags (.tlist l) s =
      .ok ((s.cache_data.filterMap Prod.snd).filterMap
        (fun e => if l.any (fun t2 => e.tags.contains t2) then some e.data
          else none))) ∧
    (∀ str : String, get_tags (.tstr str) s = .ok []) ∧
    get_tags .tnone s = .ok ((s.cache_data.filterMap Prod.snd).map Entry.data) :=
  ⟨fun l => get_tagsLoop_list_clean l s.cache_data hclean,
   fun str => get_tagsLoop_str str s.cache_data,
   get_tagsLoop_none_clean s.cache_data hclean⟩

/-- Two entries tagged `["x"]` and `["y"]` respectively. -/
def sTagsWit : State :=
  (set 0 "t2" (.vint 2) (some 0) (.tlist ["y"])
    (set 0 "t1" (.vint 1) (some 0) (.tlist ["x"]) (initState [])).2).2

/-- Witness for C10: querying `["x"]` returns exactly the `"x"`-tagged
data, a bare string returns nothing, `None` returns everything. -/
theorem get_tags_characterization_witness :
    get_tags (.tlist ["x"]) sTagsWit = .ok [.vint 1] ∧
    get_tags (.tstr "x") sTagsWit = .ok [] ∧
    get_tags .tnone sTagsWit = .ok [.vint 1, .vint 2] := by
  obtain ⟨h1, h2, h3⟩ := get_tags_characterization sTagsWit (by
    intro p hp
    rw [show sTagsWit.cache_data =
      [("t1", some ⟨.vint 1, ["x"], none⟩), ("t2", some ⟨.vint 2, ["y"], none⟩)]
      from rfl] at hp
    simp only [List.mem_cons, List.not_mem_nil, or_false] at hp
    rcases hp with rfl | rfl <;> simp)
  exact ⟨h1 ["x"], h2 "x", h3⟩

end XinCache
